import Mathlib

/-!
Verification of the web5-js transport and record-data layer.

The JavaScript sources are embedded shallowly: JavaScript runtime values
become the inductive type `JSVal` (numbers are modelled as integers, object
property tables as ordered association lists, a `ReadableStream` handle as an
opaque identifier), `JSON.stringify` / `JSON.parse` become an executable
printer/parser pair on character lists, and the HTTP exchange performed by
`HttpTransport.send` becomes a pure function from the response the network
would deliver to the reply or failure the caller observes.
-/

set_option maxHeartbeats 1000000

namespace Web5

/-- Model of a JavaScript runtime value as passed around by the transport and
record layers.  Numbers are restricted to integer values; an object is its
ordered own-property table; `stream` is an opaque handle standing for a
`ReadableStream` (identified by a tag, never inspected); `undefined` is the
JavaScript value `undefined`, distinct from JSON `null`. -/
inductive JSVal : Type where
  | undefined : JSVal
  | null : JSVal
  | bool : Bool → JSVal
  | num : Int → JSVal
  | str : String → JSVal
  | arr : List JSVal → JSVal
  | obj : List (String × JSVal) → JSVal
  | stream : Nat → JSVal

mutual

/-- Boolean equality on modelled values. -/
def beqVal : JSVal → JSVal → Bool
  | .undefined, .undefined => true
  | .null, .null => true
  | .bool a, .bool b => a == b
  | .num a, .num b => a == b
  | .str a, .str b => a == b
  | .arr a, .arr b => beqItems a b
  | .obj a, .obj b => beqFields a b
  | .stream a, .stream b => a == b
  | _, _ => false

/-- Boolean equality on lists of modelled values. -/
def beqItems : List JSVal → List JSVal → Bool
  | [], [] => true
  | a :: as, b :: bs => beqVal a b && beqItems as bs
  | _, _ => false

/-- Boolean equality on property tables. -/
def beqFields : List (String × JSVal) → List (String × JSVal) → Bool
  | [], [] => true
  | (k1, v1) :: as, (k2, v2) :: bs => k1 == k2 && beqVal v1 v2 && beqFields as bs
  | _, _ => false

end

/-- Strong induction on the size of a modelled value; substitute for the
structural induction principle tactics cannot derive for a nested inductive. -/
theorem JSVal.strongInd (P : JSVal → Prop)
    (h : ∀ v, (∀ w, sizeOf w < sizeOf v → P w) → P v) : ∀ v, P v := by
  have key : ∀ n v, sizeOf v ≤ n → P v := by
    intro n
    induction n with
    | zero =>
      intro v hv
      exact h v (fun w hw => absurd (Nat.lt_of_lt_of_le hw hv) (Nat.not_lt_zero _))
    | succ n ih =>
      intro v hv
      exact h v (fun w hw => ih w (by omega))
  exact fun v => key (sizeOf v) v (Nat.le_refl _)

theorem sizeOf_lt_arr {x : JSVal} {xs : List JSVal} (hx : x ∈ xs) :
    sizeOf x < sizeOf (JSVal.arr xs) := by
  have := List.sizeOf_lt_of_mem hx
  simp only [JSVal.arr.sizeOf_spec]
  omega

theorem sizeOf_lt_obj {kv : String × JSVal} {fs : List (String × JSVal)} (hkv : kv ∈ fs) :
    sizeOf kv.2 < sizeOf (JSVal.obj fs) := by
  have h1 := List.sizeOf_lt_of_mem hkv
  obtain ⟨k, v⟩ := kv
  simp only [JSVal.obj.sizeOf_spec]
  simp only [Prod.mk.sizeOf_spec] at h1
  omega

theorem beqVal_iff : ∀ a b : JSVal, beqVal a b = true ↔ a = b := by
  have main : ∀ a : JSVal, ∀ b : JSVal, beqVal a b = true ↔ a = b := by
    intro a
    induction a using JSVal.strongInd with
    | h a ih =>
      have harr : ∀ xs ys, (∀ x ∈ xs, ∀ b : JSVal, beqVal x b = true ↔ x = b) →
          (beqItems xs ys = true ↔ xs = ys) := by
        intro xs
        induction xs with
        | nil => intro ys _; cases ys <;> simp [beqItems]
        | cons x xs ihxs =>
          intro ys hmem
          cases ys with
          | nil => simp [beqItems]
          | cons y ys =>
            simp only [beqItems, Bool.and_eq_true]
            rw [hmem x (List.mem_cons_self x xs) y,
              ihxs ys (fun z hz => hmem z (List.mem_cons_of_mem x hz))]
            simp
      have hobj : ∀ fs gs,
          (∀ kv ∈ fs, ∀ b : JSVal, beqVal (Prod.snd kv) b = true ↔ Prod.snd kv = b) →
          (beqFields fs gs = true ↔ fs = gs) := by
        intro fs
        induction fs with
        | nil => intro gs _; cases gs <;> simp [beqFields]
        | cons kv fs ihfs =>
          intro gs hmem
          cases gs with
          | nil => simp [beqFields]
          | cons kw gs =>
            obtain ⟨k1, v1⟩ := kv
            obtain ⟨k2, v2⟩ := kw
            simp only [beqFields, Bool.and_eq_true]
            rw [hmem (k1, v1) (List.mem_cons_self _ fs) v2,
              ihfs gs (fun z hz => hmem z (List.mem_cons_of_mem _ hz))]
            simp [beq_iff_eq, and_assoc]
      intro b
      cases a <;> cases b <;> simp [beqVal]
      case arr.arr xs ys =>
        exact harr xs ys (fun x hx => ih x (sizeOf_lt_arr hx))
      case obj.obj fs gs =>
        exact hobj fs gs (fun kv hkv => ih kv.2 (sizeOf_lt_obj hkv))
  exact main

instance : DecidableEq JSVal := fun a b =>
  if h : beqVal a b = true then .isTrue ((beqVal_iff a b).mp h)
  else .isFalse (fun he => h ((beqVal_iff a b).mpr he))

/-- Whether a value is exactly the JavaScript value `undefined`. -/
def isUndefined : JSVal → Bool
  | .undefined => true
  | _ => false

/-- Property read on an object's own-property table: the value stored under
`key`, or JavaScript `undefined` when the key is absent. -/
def oget : List (String × JSVal) → String → JSVal
  | [], _ => .undefined
  | (k, v) :: rest, key => if k = key then v else oget rest key

/-- Property definition as in an object literal or assignment: an existing key
keeps its position and receives the new value, a fresh key is appended. -/
def oset : List (String × JSVal) → String → JSVal → List (String × JSVal)
  | [], key, v => [(key, v)]
  | (k, w) :: rest, key, v =>
    if k = key then (k, v) :: rest else (k, w) :: oset rest key v

/-- Whether an own property named `key` exists at all (present even when its
value is `undefined`, absent otherwise). -/
def hasKey : List (String × JSVal) → String → Bool
  | [], _ => false
  | (k, _) :: rest, key => if k = key then true else hasKey rest key

/-- Index properties contributed by spreading an array or a string. -/
def indexFields : Nat → List JSVal → List (String × JSVal)
  | _, [] => []
  | i, v :: rest => (toString i, v) :: indexFields (i + 1) rest

/-- JavaScript object spread `{...v}`: an object contributes its own
enumerable properties, arrays and strings contribute index properties,
`null`, `undefined` and the remaining primitives (and a `ReadableStream`,
which has no enumerable own properties) contribute nothing. -/
def spreadFields : JSVal → List (String × JSVal)
  | .obj fs => fs
  | .arr xs => indexFields 0 xs
  | .str s => indexFields 0 (s.toList.map (fun c => .str c.toString))
  | _ => []

/-- Property access `v[key]` in a context where `v` may be any value: on
`null` or `undefined` the access throws a `TypeError` (modelled as `none`);
on an object it reads the property table; on any other value the named
properties this code path reads (`result`, `reply`) are absent, so the access
yields `undefined`. -/
def propGet : JSVal → String → Option JSVal
  | .undefined, _ => none
  | .null, _ => none
  | .obj fs, key => some (oget fs key)
  | _, _ => some .undefined

/-- Destructuring-style field read `const { k } = v` for a `v` already known
not to be `null`/`undefined`: property of an object, `undefined` elsewhere. -/
def dget : JSVal → String → JSVal
  | .obj fs, key => oget fs key
  | _, _ => .undefined

/-! ## Decimal digits -/

/-- The character for one decimal digit. -/
def digitChar (d : Nat) : Char := Char.ofNat (48 + d)

/-- Lower-case hexadecimal digit character. -/
def hexDigitChar (d : Nat) : Char :=
  if d < 10 then digitChar d else Char.ofNat (87 + d)

/-- Decimal digits of `n`, most significant first; fuelled so that the
definition is structural and evaluates inside the kernel. -/
def natDigitsAux : Nat → Nat → List Char
  | 0, _ => []
  | fuel + 1, n =>
    if n < 10 then [digitChar n]
    else natDigitsAux fuel (n / 10) ++ [digitChar (n % 10)]

/-- Decimal digits of `n`, most significant first. -/
def natDigits (n : Nat) : List Char := natDigitsAux (n + 1) n

/-! ## String escaping as performed by `JSON.stringify` -/

/-- Escape of a single character inside a JSON string literal: quote and
backslash are backslash-escaped, the named control characters use their short
escapes, the remaining control characters use `\u00XX`, and every other
character is emitted literally. -/
def escapeChar (c : Char) : List Char :=
  if c = '"' then ['\\', '"']
  else if c = '\\' then ['\\', '\\']
  else if c = '\n' then ['\\', 'n']
  else if c = '\r' then ['\\', 'r']
  else if c = '\t' then ['\\', 't']
  else if c.toNat = 8 then ['\\', 'b']
  else if c.toNat = 12 then ['\\', 'f']
  else if c.toNat < 32 then
    ['\\', 'u', '0', '0', hexDigitChar (c.toNat / 16), hexDigitChar (c.toNat % 16)]
  else [c]

/-- Escape every character of a string body. -/
def escapeString (s : List Char) : List Char := (s.map escapeChar).flatten

/-- Printed form of an object key or string value, quotes included. -/
def serializeKey (k : String) : List Char := '"' :: escapeString k.toList ++ ['"']

/-- The printed text of the JSON keyword `null`. -/
def nullChars : List Char := ['n', 'u', 'l', 'l']

/-- The printed text of the JSON keyword `true`. -/
def trueChars : List Char := ['t', 'r', 'u', 'e']

/-- The printed text of the JSON keyword `false`. -/
def falseChars : List Char := ['f', 'a', 'l', 's', 'e']

/-- Whether a property table still holds a member `JSON.stringify` would
print, i.e. one whose value is not `undefined`. -/
def anyDefined (fs : List (String × JSVal)) : Bool :=
  fs.any (fun kv => !isUndefined kv.2)

mutual

/-- The text `JSON.stringify` produces for a value.  A top-level `undefined`
never reaches this function (see `jstringify`); an `undefined` array item is
printed as `null`, exactly as `JSON.stringify` replaces it; an object skips
its `undefined`-valued properties; a `ReadableStream` has no enumerable own
properties and prints as an empty object. -/
def serialize : JSVal → List Char
  | .undefined => nullChars
  | .null => nullChars
  | .bool true => trueChars
  | .bool false => falseChars
  | .num i => if i < 0 then '-' :: natDigits i.natAbs else natDigits i.natAbs
  | .str s => serializeKey s
  | .arr xs => '[' :: serializeItems xs ++ [']']
  | .obj fs => '{' :: serializeMembers fs ++ ['}']
  | .stream _ => ['{', '}']

/-- Comma-separated printed array items. -/
def serializeItems : List JSVal → List Char
  | [] => []
  | [x] => serialize x
  | x :: y :: xs => serialize x ++ ',' :: serializeItems (y :: xs)

/-- Comma-separated printed object members, `undefined`-valued members
skipped. -/
def serializeMembers : List (String × JSVal) → List Char
  | [] => []
  | (k, v) :: ms =>
    if isUndefined v then serializeMembers ms
    else
      serializeKey k ++ ':' :: serialize v ++
        (if anyDefined ms then ',' :: serializeMembers ms else [])

end

/-- JavaScript `JSON.stringify`: returns no string at all on `undefined`
(the JavaScript result is the value `undefined`, not a string), the printed
text otherwise. -/
def jstringify (v : JSVal) : Option String :=
  if v = .undefined then none else some ⟨serialize v⟩

/-! ## A `JSON.parse` model

A recursive-descent parser over the character list, fuelled so every
definition is structural and evaluates inside the kernel.  It accepts the
JSON grammar restricted to integer numerals (the only numbers the value
model carries); like `JSON.parse` it skips the four JSON whitespace
characters between tokens, understands the full set of string escapes, and
keeps the last of duplicated object keys. -/

/-- The four JSON whitespace characters. -/
def isWs (c : Char) : Bool :=
  c.toNat = 32 || c.toNat = 9 || c.toNat = 10 || c.toNat = 13

/-- Drop leading JSON whitespace. -/
def skipWs : List Char → List Char
  | [] => []
  | c :: rest => if isWs c then skipWs rest else c :: rest

/-- Whether the character is a decimal digit. -/
def isDigitChar (c : Char) : Bool := 48 ≤ c.toNat && c.toNat ≤ 57

/-- Whether the text begins with a decimal digit. -/
def headIsDigit : List Char → Bool
  | [] => false
  | c :: _ => isDigitChar c

/-- Value of one hexadecimal digit. -/
def hexVal (c : Char) : Option Nat :=
  if 48 ≤ c.toNat ∧ c.toNat ≤ 57 then some (c.toNat - 48)
  else if 97 ≤ c.toNat ∧ c.toNat ≤ 102 then some (c.toNat - 87)
  else if 65 ≤ c.toNat ∧ c.toNat ≤ 70 then some (c.toNat - 55)
  else none

/-- The character named by a single-character JSON escape. -/
def unescapeChar (e : Char) : Option Char :=
  if e = '"' then some '"'
  else if e = '\\' then some '\\'
  else if e = '/' then some '/'
  else if e = 'n' then some '\n'
  else if e = 'r' then some '\r'
  else if e = 't' then some '\t'
  else if e = 'b' then some (Char.ofNat 8)
  else if e = 'f' then some (Char.ofNat 12)
  else none

/-- Parse the body of a string literal, the opening quote already consumed;
returns the decoded characters and the text after the closing quote.  A raw
control character or a malformed escape is a parse error, as in `JSON.parse`.
-/
def parseStringBody : List Char → Option (List Char × List Char)
  | [] => none
  | c :: rest =>
    if c = '"' then some ([], rest)
    else if c = '\\' then
      match rest with
      | [] => none
      | e :: rest2 =>
        if e = 'u' then
          match rest2 with
          | h1 :: h2 :: h3 :: h4 :: rest3 =>
            match hexVal h1, hexVal h2, hexVal h3, hexVal h4 with
            | some a, some b, some c2, some d =>
              (parseStringBody rest3).map
                (fun p => (Char.ofNat (((a * 16 + b) * 16 + c2) * 16 + d) :: p.1, p.2))
            | _, _, _, _ => none
          | _ => none
        else
          match unescapeChar e with
          | some u => (parseStringBody rest2).map (fun p => (u :: p.1, p.2))
          | none => none
    else if c.toNat < 32 then none
    else (parseStringBody rest).map (fun p => (c :: p.1, p.2))

/-- Consume a maximal run of decimal digits, folding them onto `acc`. -/
def parseDigitsAcc : Nat → List Char → Nat × List Char
  | acc, [] => (acc, [])
  | acc, c :: rest =>
    if isDigitChar c then parseDigitsAcc (10 * acc + (c.toNat - 48)) rest
    else (acc, c :: rest)

/-- Parse an integer numeral: an optional minus sign followed by at least one
digit. -/
def parseNumber : List Char → Option (Int × List Char)
  | [] => none
  | c :: rest =>
    if c = '-' then
      match rest with
      | [] => none
      | c2 :: rest2 =>
        if isDigitChar c2 then
          let p := parseDigitsAcc 0 (c2 :: rest2)
          some (-(p.1 : Int), p.2)
        else none
    else if isDigitChar c then
      let p := parseDigitsAcc 0 (c :: rest)
      some ((p.1 : Int), p.2)
    else none

/-- Rebuild a JavaScript object from parsed members in order: a repeated key
keeps its first position and takes the later value, exactly as repeated keys
behave in `JSON.parse`. -/
def objFromPairs (pairs : List (String × JSVal)) : List (String × JSVal) :=
  pairs.foldl (fun acc kv => oset acc kv.1 kv.2) []

mutual

/-- Parse one JSON value, leading whitespace allowed; returns the value and
the unconsumed text. -/
def parseVal : Nat → List Char → Option (JSVal × List Char)
  | 0, _ => none
  | fuel + 1, s =>
    match skipWs s with
    | [] => none
    | c :: rest =>
      if c = '"' then
        (parseStringBody rest).map (fun p => (JSVal.str ⟨p.1⟩, p.2))
      else if c = '[' then
        match skipWs rest with
        | ']' :: r => some (.arr [], r)
        | s2 => (parseItems fuel s2).map (fun p => (JSVal.arr p.1, p.2))
      else if c = '{' then
        match skipWs rest with
        | '}' :: r => some (.obj [], r)
        | s2 => (parseMembers fuel s2).map (fun p => (JSVal.obj (objFromPairs p.1), p.2))
      else if c = 't' then
        match rest with
        | 'r' :: 'u' :: 'e' :: r => some (.bool true, r)
        | _ => none
      else if c = 'f' then
        match rest with
        | 'a' :: 'l' :: 's' :: 'e' :: r => some (.bool false, r)
        | _ => none
      else if c = 'n' then
        match rest with
        | 'u' :: 'l' :: 'l' :: r => some (.null, r)
        | _ => none
      else
        (parseNumber (c :: rest)).map (fun p => (JSVal.num p.1, p.2))

/-- Parse the items of a non-empty array, the opening bracket consumed;
consumes the closing bracket. -/
def parseItems : Nat → List Char → Option (List JSVal × List Char)
  | 0, _ => none
  | fuel + 1, s => do
    let (v, r) ← parseVal fuel s
    match skipWs r with
    | ',' :: r2 => do
      let (xs, r3) ← parseItems fuel r2
      pure (v :: xs, r3)
    | ']' :: r2 => pure ([v], r2)
    | _ => none

/-- Parse the members of a non-empty object, the opening brace consumed;
consumes the closing brace. -/
def parseMembers : Nat → List Char → Option (List (String × JSVal) × List Char)
  | 0, _ => none
  | fuel + 1, s =>
    match skipWs s with
    | '"' :: r => do
      let (k, r2) ← parseStringBody r
      match skipWs r2 with
      | ':' :: r3 => do
        let (v, r4) ← parseVal fuel r3
        match skipWs r4 with
        | ',' :: r5 => do
          let (fs, r6) ← parseMembers fuel r5
          pure ((⟨k⟩, v) :: fs, r6)
        | '}' :: r5 => pure ([(⟨k⟩, v)], r5)
        | _ => none
      | _ => none
    | _ => none

end

/-- JavaScript `JSON.parse`: the whole text must be one JSON value, trailing
whitespace aside.  The fuel `length + 1` bounds the recursion depth; a
nesting level consumes at least one character, so it never runs out on text
the grammar accepts (`jsize_le_serialize` makes this exact for printed
text). -/
def jparse (s : String) : Option JSVal :=
  match parseVal (s.toList.length + 1) s.toList with
  | some (v, rest) => if skipWs rest = [] then some v else none
  | none => none

mutual

/-- Fuel needed by `parseVal` to parse the printed form of a value. -/
def jsize : JSVal → Nat
  | .undefined => 1
  | .null => 1
  | .bool _ => 1
  | .num _ => 1
  | .str _ => 1
  | .arr xs => 1 + jsizeItems xs
  | .obj fs => 1 + jsizeMembers fs
  | .stream _ => 1

/-- Fuel needed by `parseItems` for the printed items. -/
def jsizeItems : List JSVal → Nat
  | [] => 0
  | x :: xs => 1 + jsize x + jsizeItems xs

/-- Fuel needed by `parseMembers` for the printed members. -/
def jsizeMembers : List (String × JSVal) → Nat
  | [] => 0
  | (_, v) :: fs => 1 + jsize v + jsizeMembers fs

end

/-! ## Printer and parser agree: helper lemmas -/

theorem char_toNat_ofNat {n : Nat} (h : n < 55296) : (Char.ofNat n).toNat = n := by
  have hv : n.isValidChar := Or.inl h
  simp only [Char.ofNat, hv, dite_true]
  simp [Char.ofNatAux, Char.toNat, UInt32.toNat, BitVec.toNat_ofNatLt]

theorem char_toNat_inj {c d : Char} (h : c.toNat = d.toNat) : c = d :=
  Char.ext (UInt32.toNat.inj h)

theorem char_ofNat_toNat {c : Char} (h : c.toNat < 55296) : Char.ofNat c.toNat = c :=
  char_toNat_inj (char_toNat_ofNat h)

theorem hexVal_hexDigitChar {d : Nat} (h : d < 16) : hexVal (hexDigitChar d) = some d := by
  interval_cases d <;> decide

theorem toNat_digitChar {d : Nat} (h : d < 10) : (digitChar d).toNat = 48 + d :=
  char_toNat_ofNat (by omega)

theorem isDigitChar_digitChar {d : Nat} (h : d < 10) : isDigitChar (digitChar d) = true := by
  simp only [isDigitChar, toNat_digitChar h, Bool.and_eq_true, decide_eq_true_eq]
  omega

theorem skipWs_not_ws {c : Char} {s : List Char} (h : isWs c = false) :
    skipWs (c :: s) = c :: s := by
  rw [skipWs, h]
  rfl

theorem isWs_of_digit {c : Char} (h : isDigitChar c = true) : isWs c = false := by
  simp only [isDigitChar, Bool.and_eq_true, decide_eq_true_eq] at h
  simp only [isWs, Bool.or_eq_false_iff, decide_eq_false_iff_not]
  omega

theorem char_ne_of_toNat {c : Char} {n : Nat} (hc : c.toNat ≠ n) (d : Char)
    (hd : d.toNat = n) : c ≠ d := by
  intro he
  rw [he, hd] at hc
  exact hc rfl

theorem parseStringBody_escape :
    ∀ cs rest, parseStringBody (escapeString cs ++ '"' :: rest) = some (cs, rest) := by
  intro cs
  induction cs with
  | nil =>
    intro rest
    show parseStringBody ('"' :: rest) = some ([], rest)
    rw [parseStringBody.eq_def]
    simp
  | cons c cs ih =>
    intro rest
    have hes : escapeString (c :: cs) ++ '"' :: rest =
        escapeChar c ++ (escapeString cs ++ '"' :: rest) := by
      simp [escapeString]
    rw [hes]
    by_cases h1 : c = '"'
    · subst h1
      rw [show escapeChar '"' = ['\\', '"'] from rfl, List.cons_append, List.cons_append,
        List.nil_append, parseStringBody.eq_def]
      simp [unescapeChar, ih rest]
    by_cases h2 : c = '\\'
    · subst h2
      rw [show escapeChar '\\' = ['\\', '\\'] from rfl, List.cons_append, List.cons_append,
        List.nil_append, parseStringBody.eq_def]
      simp [unescapeChar, ih rest]
    by_cases h3 : c = '\n'
    · subst h3
      rw [show escapeChar '\n' = ['\\', 'n'] from rfl, List.cons_append, List.cons_append,
        List.nil_append, parseStringBody.eq_def]
      simp [unescapeChar, ih rest]
    by_cases h4 : c = '\r'
    · subst h4
      rw [show escapeChar '\r' = ['\\', 'r'] from rfl, List.cons_append, List.cons_append,
        List.nil_append, parseStringBody.eq_def]
      simp [unescapeChar, ih rest]
    by_cases h5 : c = '\t'
    · subst h5
      rw [show escapeChar '\t' = ['\\', 't'] from rfl, List.cons_append, List.cons_append,
        List.nil_append, parseStringBody.eq_def]
      simp [unescapeChar, ih rest]
    by_cases h6 : c.toNat = 8
    · have hc : c = Char.ofNat 8 := char_toNat_inj (by rw [h6]; rfl)
      subst hc
      rw [show escapeChar (Char.ofNat 8) = ['\\', 'b'] from rfl, List.cons_append,
        List.cons_append, List.nil_append, parseStringBody.eq_def]
      simp [unescapeChar, ih rest]
    by_cases h7 : c.toNat = 12
    · have hc : c = Char.ofNat 12 := char_toNat_inj (by rw [h7]; rfl)
      subst hc
      rw [show escapeChar (Char.ofNat 12) = ['\\', 'f'] from rfl, List.cons_append,
        List.cons_append, List.nil_append, parseStringBody.eq_def]
      simp [unescapeChar, ih rest]
    by_cases h8 : c.toNat < 32
    · rw [show escapeChar c = ['\\', 'u', '0', '0',
        hexDigitChar (c.toNat / 16), hexDigitChar (c.toNat % 16)] by
        rw [escapeChar, if_neg h1, if_neg h2, if_neg h3, if_neg h4, if_neg h5,
          if_neg h6, if_neg h7, if_pos h8]]
      rw [List.cons_append, List.cons_append, List.cons_append, List.cons_append,
        List.cons_append, List.cons_append, List.nil_append, parseStringBody.eq_def]
      simp only [hexVal_hexDigitChar (show c.toNat / 16 < 16 by omega),
        hexVal_hexDigitChar (show c.toNat % 16 < 16 by omega),
        show hexVal '0' = some 0 from by decide]
      simp [ih rest]
      rw [show c.toNat / 16 * 16 + c.toNat % 16 = c.toNat by omega,
        char_ofNat_toNat (by omega)]
    · rw [show escapeChar c = [c] by
        rw [escapeChar, if_neg h1, if_neg h2, if_neg h3, if_neg h4, if_neg h5,
          if_neg h6, if_neg h7, if_neg h8]]
      rw [List.cons_append, List.nil_append, parseStringBody.eq_def]
      simp [h1, h2, h8, ih rest]

theorem natDigitsAux_head : ∀ fuel n, n < fuel →
    ∃ c t, natDigitsAux fuel n = c :: t ∧ isDigitChar c = true := by
  intro fuel
  induction fuel with
  | zero => intro n h; omega
  | succ fuel ih =>
    intro n h
    rw [natDigitsAux]
    by_cases h10 : n < 10
    · rw [if_pos h10]
      exact ⟨digitChar n, [], rfl, isDigitChar_digitChar h10⟩
    · rw [if_neg h10]
      obtain ⟨c, t, hct, hd⟩ := ih (n / 10) (by omega)
      exact ⟨c, t ++ [digitChar (n % 10)], by rw [hct]; rfl, hd⟩

theorem parseDigitsAcc_digits : ∀ fuel n acc rest, n < fuel →
    parseDigitsAcc acc (natDigitsAux fuel n ++ rest) =
      parseDigitsAcc (acc * 10 ^ (natDigitsAux fuel n).length + n) rest := by
  intro fuel
  induction fuel with
  | zero => intro n acc rest h; omega
  | succ fuel ih =>
    intro n acc rest h
    rw [natDigitsAux]
    by_cases h10 : n < 10
    · rw [if_pos h10, List.singleton_append, parseDigitsAcc,
        if_pos (isDigitChar_digitChar h10), toNat_digitChar h10]
      congr 1
      simp
      omega
    · rw [if_neg h10, List.append_assoc, ih (n / 10) acc _ (by omega),
        List.singleton_append, parseDigitsAcc,
        if_pos (isDigitChar_digitChar (by omega : n % 10 < 10)),
        toNat_digitChar (by omega : n % 10 < 10)]
      congr 1
      rw [List.length_append, List.length_cons, List.length_nil, pow_succ, ← Nat.mul_assoc]
      generalize acc * 10 ^ (natDigitsAux fuel (n / 10)).length = M
      omega

theorem parseDigitsAcc_stop {acc : Nat} {rest : List Char} (h : headIsDigit rest = false) :
    parseDigitsAcc acc rest = (acc, rest) := by
  cases rest with
  | nil => rfl
  | cons c t =>
    rw [headIsDigit] at h
    rw [parseDigitsAcc, if_neg (by simp [h])]

theorem parseNumber_digits {n : Nat} {rest : List Char} (h : headIsDigit rest = false) :
    parseNumber (natDigits n ++ rest) = some ((n : Int), rest) := by
  obtain ⟨c, t, hct, hd⟩ := natDigitsAux_head (n + 1) n (by omega)
  have hcm : ¬ c = '-' := by
    intro he
    rw [he] at hd
    exact absurd hd (by decide)
  rw [natDigits, hct, List.cons_append, parseNumber.eq_def]
  simp only [if_neg hcm, if_pos hd]
  rw [show c :: (t ++ rest) = natDigitsAux (n + 1) n ++ rest by rw [hct, List.cons_append],
    parseDigitsAcc_digits _ _ _ _ (by omega), parseDigitsAcc_stop h]
  simp

theorem parseNumber_minus_digits {n : Nat} {rest : List Char} (h : headIsDigit rest = false) :
    parseNumber ('-' :: (natDigits n ++ rest)) = some (-(n : Int), rest) := by
  obtain ⟨c, t, hct, hd⟩ := natDigitsAux_head (n + 1) n (by omega)
  rw [natDigits, hct, List.cons_append, parseNumber.eq_def]
  simp only [show (('-' : Char) = '-') = True by simp, if_true]
  rw [if_pos hd]
  rw [show c :: (t ++ rest) = natDigitsAux (n + 1) n ++ rest by rw [hct, List.cons_append],
    parseDigitsAcc_digits _ _ _ _ (by omega), parseDigitsAcc_stop h]
  simp

theorem serialize_num_eq (i : Int) : serialize (.num i) =
    if i < 0 then '-' :: natDigits i.natAbs else natDigits i.natAbs := by
  rw [serialize]

theorem parseNumber_serialize_num {i : Int} {rest : List Char} (h : headIsDigit rest = false) :
    parseNumber (serialize (.num i) ++ rest) = some (i, rest) := by
  rw [serialize_num_eq]
  by_cases hneg : i < 0
  · rw [if_pos hneg, List.cons_append, parseNumber_minus_digits h]
    congr 1
    congr 1
    omega
  · rw [if_neg hneg, parseNumber_digits h]
    congr 1
    congr 1
    omega

mutual

/-- Values that survive a `JSON.stringify` / `JSON.parse` round trip intact:
no `undefined` anywhere (`stringify` drops or rewrites it), no stream handle
(it prints as an empty object), and no object with a repeated key (a
JavaScript object cannot carry one; `JSON.parse` would keep only the last). -/
def serializableB : JSVal → Bool
  | .undefined => false
  | .stream _ => false
  | .arr xs => serializableItemsB xs
  | .obj fs => decide ((fs.map Prod.fst).Nodup) && serializableFieldsB fs
  | .null => true
  | .bool _ => true
  | .num _ => true
  | .str _ => true

/-- Every array item serializable. -/
def serializableItemsB : List JSVal → Bool
  | [] => true
  | x :: xs => serializableB x && serializableItemsB xs

/-- Every property value serializable. -/
def serializableFieldsB : List (String × JSVal) → Bool
  | [] => true
  | (_, v) :: fs => serializableB v && serializableFieldsB fs

end

theorem not_undef_of_serializable {v : JSVal} (h : serializableB v = true) :
    isUndefined v = false := by
  cases v <;> first
    | rfl
    | exact absurd h (by rw [serializableB]; simp)

theorem serialize_head (v : JSVal) :
    ∃ c t, serialize v = c :: t ∧ isWs c = false ∧ ¬ c = ']' := by
  cases v with
  | undefined => exact ⟨'n', _, by rw [serialize, nullChars], by decide, by decide⟩
  | null => exact ⟨'n', _, by rw [serialize, nullChars], by decide, by decide⟩
  | bool b =>
    cases b with
    | true => exact ⟨'t', _, by rw [serialize, trueChars], by decide, by decide⟩
    | false => exact ⟨'f', _, by rw [serialize, falseChars], by decide, by decide⟩
  | num i =>
    by_cases hneg : i < 0
    · exact ⟨'-', _, by rw [serialize_num_eq, if_pos hneg], by decide, by decide⟩
    · obtain ⟨c, t, hct, hd⟩ := natDigitsAux_head (i.natAbs + 1) i.natAbs (by omega)
      refine ⟨c, t, ?_, isWs_of_digit hd, ?_⟩
      · rw [serialize_num_eq, if_neg hneg, natDigits, hct]
      · intro he
        rw [he] at hd
        exact absurd hd (by decide)
  | str s => exact ⟨'"', _, by rw [serialize, serializeKey]; rfl, by decide, by decide⟩
  | arr xs => exact ⟨'[', _, by rw [serialize]; rfl, by decide, by decide⟩
  | obj fs => exact ⟨'{', _, by rw [serialize]; rfl, by decide, by decide⟩
  | stream n => exact ⟨'{', _, by rw [serialize], by decide, by decide⟩

theorem oset_fresh {fs : List (String × JSVal)} {k : String} (v : JSVal)
    (h : ¬ k ∈ fs.map Prod.fst) : oset fs k v = fs ++ [(k, v)] := by
  induction fs with
  | nil => rfl
  | cons kv fs ih =>
    obtain ⟨k1, v1⟩ := kv
    have hne : ¬ k1 = k := by
      intro he
      exact h (by rw [he]; exact List.mem_cons_self _ _)
    rw [oset, if_neg hne, ih (fun hm => h (List.mem_cons_of_mem _ hm))]
    rfl

theorem foldl_oset_of_nodup : ∀ (pairs acc : List (String × JSVal)),
    (∀ kv ∈ pairs, ¬ kv.1 ∈ acc.map Prod.fst) →
    (pairs.map Prod.fst).Nodup →
    pairs.foldl (fun a kv => oset a kv.1 kv.2) acc = acc ++ pairs := by
  intro pairs
  induction pairs with
  | nil => intro acc _ _; simp
  | cons kv ps ih =>
    intro acc hfresh hnd
    obtain ⟨k, v⟩ := kv
    rw [List.foldl_cons,
      show oset acc k v = acc ++ [(k, v)] from
        oset_fresh v (hfresh (k, v) (List.mem_cons_self _ _))]
    rw [List.map_cons, List.nodup_cons] at hnd
    rw [ih (acc ++ [(k, v)]) ?fresh hnd.2]
    · simp
    case fresh =>
      intro kw hkw
      obtain ⟨kwk, kwv⟩ := kw
      simp only [List.map_append, List.mem_append, List.map_cons, List.map_nil,
        List.mem_cons, List.not_mem_nil, or_false]
      rintro (hacc | hk)
      · exact hfresh (kwk, kwv) (List.mem_cons_of_mem _ hkw) hacc
      · exact hnd.1 (by
          rw [← hk]
          exact List.mem_map.mpr ⟨(kwk, kwv), hkw, rfl⟩)

theorem objFromPairs_nodup {pairs : List (String × JSVal)}
    (h : (pairs.map Prod.fst).Nodup) : objFromPairs pairs = pairs := by
  rw [objFromPairs, foldl_oset_of_nodup pairs [] (by simp) h]
  rfl

theorem jsize_pos : ∀ v : JSVal, 1 ≤ jsize v := by
  intro v
  cases v <;> rw [jsize] <;> omega

theorem parseVal_num_head (fuel : Nat) (c : Char) (s : List Char)
    (h : isDigitChar c = true ∨ c = '-') :
    parseVal (fuel + 1) (c :: s) =
      (parseNumber (c :: s)).map (fun p => (JSVal.num p.1, p.2)) := by
  have hbound : 48 ≤ c.toNat ∧ c.toNat ≤ 57 ∨ c.toNat = 45 := by
    rcases h with h | h
    · left
      simpa [isDigitChar] using h
    · right
      rw [h]
      rfl
  have hws : isWs c = false := by
    simp only [isWs, Bool.or_eq_false_iff, decide_eq_false_iff_not]
    omega
  have h1 : ¬ c = '"' := fun he => by rw [he] at hbound; revert hbound; decide
  have h2 : ¬ c = '[' := fun he => by rw [he] at hbound; revert hbound; decide
  have h3 : ¬ c = '{' := fun he => by rw [he] at hbound; revert hbound; decide
  have h4 : ¬ c = 't' := fun he => by rw [he] at hbound; revert hbound; decide
  have h5 : ¬ c = 'f' := fun he => by rw [he] at hbound; revert hbound; decide
  have h6 : ¬ c = 'n' := fun he => by rw [he] at hbound; revert hbound; decide
  rw [parseVal.eq_def]
  simp only [skipWs_not_ws hws, if_neg h1, if_neg h2, if_neg h3, if_neg h4,
    if_neg h5, if_neg h6]

theorem parse_serialize_mutual : ∀ fuel : Nat,
    (∀ v rest, serializableB v = true → jsize v ≤ fuel → headIsDigit rest = false →
      parseVal fuel (serialize v ++ rest) = some (v, rest)) ∧
    (∀ x xs rest, serializableB x = true → serializableItemsB xs = true →
      jsizeItems (x :: xs) ≤ fuel →
      parseItems fuel (serializeItems (x :: xs) ++ ']' :: rest) = some (x :: xs, rest)) ∧
    (∀ k v fs rest, serializableB v = true → serializableFieldsB fs = true →
      jsizeMembers ((k, v) :: fs) ≤ fuel →
      parseMembers fuel (serializeMembers ((k, v) :: fs) ++ '}' :: rest) =
        some ((k, v) :: fs, rest)) := by
  intro fuel
  induction fuel with
  | zero =>
    refine ⟨?_, ?_, ?_⟩
    · intro v rest _ hsz _
      have := jsize_pos v
      omega
    · intro x xs rest _ _ hsz
      rw [jsizeItems] at hsz
      omega
    · intro k v fs rest _ _ hsz
      rw [jsizeMembers] at hsz
      omega
  | succ fuel ih =>
    obtain ⟨ihV, ihI, ihM⟩ := ih
    refine ⟨?_, ?_, ?_⟩
    · intro v rest hs hsz hrest
      cases v with
      | undefined => exact absurd hs (by rw [serializableB]; simp)
      | stream sid => exact absurd hs (by rw [serializableB]; simp)
      | null =>
        rw [serialize, nullChars]
        simp only [List.cons_append, List.nil_append]
        rw [parseVal.eq_def]
        simp only [skipWs_not_ws (show isWs 'n' = false from by decide)]
        simp
      | bool b =>
        cases b with
        | true =>
          rw [serialize, trueChars]
          simp only [List.cons_append, List.nil_append]
          rw [parseVal.eq_def]
          simp only [skipWs_not_ws (show isWs 't' = false from by decide)]
          simp
        | false =>
          rw [serialize, falseChars]
          simp only [List.cons_append, List.nil_append]
          rw [parseVal.eq_def]
          simp only [skipWs_not_ws (show isWs 'f' = false from by decide)]
          simp
      | num i =>
        rw [serialize_num_eq]
        by_cases hneg : i < 0
        · rw [if_pos hneg, List.cons_append,
            parseVal_num_head fuel '-' _ (Or.inr rfl),
            show '-' :: (natDigits i.natAbs ++ rest) =
              serialize (.num i) ++ rest by rw [serialize_num_eq, if_pos hneg]; rfl,
            parseNumber_serialize_num hrest]
          rfl
        · obtain ⟨c, t, hct, hd⟩ := natDigitsAux_head (i.natAbs + 1) i.natAbs (by omega)
          rw [if_neg hneg, natDigits, hct, List.cons_append,
            parseVal_num_head fuel c _ (Or.inl hd),
            show c :: (t ++ rest) = serialize (.num i) ++ rest by
              rw [serialize_num_eq, if_neg hneg, natDigits, hct]; rfl,
            parseNumber_serialize_num hrest]
          rfl
      | str s =>
        rw [serialize, serializeKey]
        simp only [List.append_assoc, List.cons_append, List.singleton_append,
            List.nil_append]
        rw [parseVal.eq_def]
        simp only [skipWs_not_ws (show isWs '"' = false from by decide)]
        simp only [show (('"' : Char) = '"') = True by simp, if_true]
        rw [parseStringBody_escape]
        rfl
      | arr xs =>
        cases xs with
        | nil =>
          rw [serialize, serializeItems]
          simp only [List.append_assoc, List.cons_append, List.nil_append,
            List.singleton_append]
          rw [parseVal.eq_def]
          simp only [skipWs_not_ws (show isWs '[' = false from by decide)]
          simp only [show (('[' : Char) = '"') = False by simp, if_false,
            show (('[' : Char) = '[') = True by simp, if_true]
          simp only [skipWs_not_ws (show isWs ']' = false from by decide)]
        | cons x xs =>
          have hu : ∃ u, serializeItems (x :: xs) = serialize x ++ u := by
            cases xs with
            | nil => exact ⟨[], by rw [serializeItems, List.append_nil]⟩
            | cons y ys => exact ⟨',' :: serializeItems (y :: ys), by rw [serializeItems]⟩
          obtain ⟨u, hu⟩ := hu
          obtain ⟨c, t, hct, hws, hnc⟩ := serialize_head x
          have hSI : serializeItems (x :: xs) ++ ']' :: rest =
              c :: (t ++ u ++ ']' :: rest) := by
            rw [hu, hct]
            simp
          rw [serializableB, serializableItemsB, Bool.and_eq_true] at hs
          rw [jsize] at hsz
          rw [serialize]
          simp only [List.append_assoc, List.cons_append, List.singleton_append,
            List.nil_append]
          rw [parseVal.eq_def]
          simp only [skipWs_not_ws (show isWs '[' = false from by decide)]
          simp only [show (('[' : Char) = '"') = False by simp, if_false,
            show (('[' : Char) = '[') = True by simp, if_true]
          rw [hSI, skipWs_not_ws hws]
          split
          · next r heq =>
            exact absurd (List.cons.inj heq).1 hnc
          · next =>
            rw [← hSI, ihI x xs rest hs.1 hs.2 (by omega)]
            rfl
      | obj fs =>
        rw [serializableB, Bool.and_eq_true, decide_eq_true_eq] at hs
        cases fs with
        | nil =>
          rw [serialize, serializeMembers]
          simp only [List.append_assoc, List.cons_append, List.nil_append,
            List.singleton_append]
          rw [parseVal.eq_def]
          simp only [skipWs_not_ws (show isWs '{' = false from by decide)]
          simp only [show (('{' : Char) = '"') = False by simp, if_false,
            show (('{' : Char) = '[') = False by simp, if_false,
            show (('{' : Char) = '{') = True by simp, if_true]
          simp only [skipWs_not_ws (show isWs '}' = false from by decide)]
        | cons kv fs =>
          obtain ⟨k, v⟩ := kv
          rw [serializableFieldsB, Bool.and_eq_true] at hs
          rw [jsize] at hsz
          have hv0 : isUndefined v = false := not_undef_of_serializable hs.2.1
          have hSM : serializeMembers ((k, v) :: fs) ++ '}' :: rest =
              '"' :: (escapeString k.toList ++
                ('"' :: ':' :: (serialize v ++
                  ((if anyDefined fs then ',' :: serializeMembers fs else []) ++
                    '}' :: rest)))) := by
            rw [serializeMembers, if_neg (by rw [hv0]; exact Bool.false_ne_true),
              serializeKey]
            simp
          rw [serialize]
          simp only [List.append_assoc, List.cons_append, List.singleton_append,
            List.nil_append]
          rw [parseVal.eq_def]
          simp only [skipWs_not_ws (show isWs '{' = false from by decide)]
          simp only [show (('{' : Char) = '"') = False by simp, if_false,
            show (('{' : Char) = '[') = False by simp, if_false,
            show (('{' : Char) = '{') = True by simp, if_true]
          rw [hSM, skipWs_not_ws (show isWs '"' = false from by decide)]
          split
          · next r heq =>
            exact absurd (List.cons.inj heq).1 (by decide)
          · next =>
            rw [← hSM, ihM k v fs rest hs.2.1 hs.2.2 (by omega)]
            simp [objFromPairs_nodup hs.1]
    · intro x xs rest hsx hsxs hsz
      rw [jsizeItems] at hsz
      cases xs with
      | nil =>
        rw [serializeItems, parseItems.eq_def]
        simp only [ihV x (']' :: rest) hsx (by omega) rfl, Option.some_bind,
          Option.bind_eq_bind, Option.bind_some,
          skipWs_not_ws (show isWs ']' = false from by decide)]
        rfl
      | cons y ys =>
        rw [serializableItemsB, Bool.and_eq_true] at hsxs
        rw [serializeItems]
        simp only [List.append_assoc, List.cons_append]
        rw [parseItems.eq_def]
        simp only [ihV x (',' :: (serializeItems (y :: ys) ++ ']' :: rest)) hsx
            (by omega) rfl,
          Option.some_bind, Option.bind_eq_bind, Option.bind_some,
          skipWs_not_ws (show isWs ',' = false from by decide),
          ihI y ys rest hsxs.1 hsxs.2 (by omega)]
        rfl
    · intro k v fs rest hsv hsfs hsz
      rw [jsizeMembers] at hsz
      have hv0 : isUndefined v = false := not_undef_of_serializable hsv
      cases fs with
      | nil =>
        have hSM : serializeMembers [(k, v)] ++ '}' :: rest =
            '"' :: (escapeString k.toList ++ ('"' :: ':' :: (serialize v ++ '}' :: rest))) := by
          rw [serializeMembers, if_neg (by rw [hv0]; exact Bool.false_ne_true),
            serializeKey]
          simp [anyDefined]
        rw [hSM, parseMembers.eq_def]
        simp only [skipWs_not_ws (show isWs '"' = false from by decide),
          parseStringBody_escape, Option.some_bind, Option.bind_eq_bind,
          Option.bind_some,
          skipWs_not_ws (show isWs ':' = false from by decide),
          ihV v ('}' :: rest) hsv (by omega) rfl,
          skipWs_not_ws (show isWs '}' = false from by decide)]
        rfl
      | cons kw fs =>
        obtain ⟨k2, v2⟩ := kw
        rw [serializableFieldsB, Bool.and_eq_true] at hsfs
        have hv2 : isUndefined v2 = false := not_undef_of_serializable hsfs.1
        have hSM : serializeMembers ((k, v) :: (k2, v2) :: fs) ++ '}' :: rest =
            '"' :: (escapeString k.toList ++ '"' :: (':' :: (serialize v ++
              ',' :: (serializeMembers ((k2, v2) :: fs) ++ '}' :: rest)))) := by
          rw [serializeMembers, if_neg (by rw [hv0]; exact Bool.false_ne_true),
            serializeKey, show anyDefined ((k2, v2) :: fs) = true by
              rw [anyDefined]
              simp [hv2]]
          simp
        rw [hSM, parseMembers.eq_def]
        simp only [skipWs_not_ws (show isWs '"' = false from by decide),
          parseStringBody_escape, Option.some_bind, Option.bind_eq_bind,
          Option.bind_some,
          skipWs_not_ws (show isWs ':' = false from by decide),
          ihV v (',' :: (serializeMembers ((k2, v2) :: fs) ++ '}' :: rest)) hsv
            (by omega) rfl,
          skipWs_not_ws (show isWs ',' = false from by decide),
          ihM k2 v2 fs rest hsfs.1 hsfs.2 (by omega)]
        rfl

theorem jsize_le_serialize : ∀ v : JSVal, serializableB v = true →
    jsize v ≤ (serialize v).length := by
  intro v
  induction v using JSVal.strongInd with
  | h v ih =>
    have ihv : ∀ w : JSVal, sizeOf w < sizeOf v →
        serializableB w = true → jsize w ≤ (serialize w).length := ih
    have hitems : ∀ xs : List JSVal,
        (∀ x ∈ xs, serializableB x = true → jsize x ≤ (serialize x).length) →
        serializableItemsB xs = true →
        jsizeItems xs ≤ (serializeItems xs).length + 1 := by
      intro xs
      induction xs with
      | nil =>
        intro _ _
        rw [jsizeItems]
        omega
      | cons x xs ihxs =>
        intro hmem hser
        rw [serializableItemsB, Bool.and_eq_true] at hser
        have h1 := hmem x (List.mem_cons_self _ _) hser.1
        cases xs with
        | nil =>
          rw [jsizeItems, jsizeItems, serializeItems]
          omega
        | cons y ys =>
          have h2 := ihxs (fun z hz => hmem z (List.mem_cons_of_mem _ hz)) hser.2
          rw [jsizeItems, serializeItems, List.length_append, List.length_cons]
          omega
    have hmems : ∀ fs : List (String × JSVal),
        (∀ kv ∈ fs, serializableB (Prod.snd kv) = true →
          jsize (Prod.snd kv) ≤ (serialize (Prod.snd kv)).length) →
        serializableFieldsB fs = true →
        jsizeMembers fs ≤ (serializeMembers fs).length + 1 := by
      intro fs
      induction fs with
      | nil =>
        intro _ _
        rw [jsizeMembers]
        omega
      | cons kv fs ihfs =>
        intro hmem hser
        obtain ⟨k, v⟩ := kv
        rw [serializableFieldsB, Bool.and_eq_true] at hser
        have h1 := hmem (k, v) (List.mem_cons_self _ _) hser.1
        have hv0 : isUndefined v = false := not_undef_of_serializable hser.1
        cases fs with
        | nil =>
          rw [jsizeMembers, jsizeMembers, serializeMembers,
            if_neg (by rw [hv0]; exact Bool.false_ne_true)]
          simp only [anyDefined, List.any_nil, Bool.false_eq_true, if_false,
            List.append_nil, List.length_append, List.length_cons]
          simp at h1
          omega
        | cons kw fs2 =>
          obtain ⟨k2, v2⟩ := kw
          have hv2 : isUndefined v2 = false := by
            rw [serializableFieldsB, Bool.and_eq_true] at hser
            exact not_undef_of_serializable hser.2.1
          have h2 := ihfs (fun z hz => hmem z (List.mem_cons_of_mem _ hz)) hser.2
          rw [jsizeMembers, serializeMembers,
            if_neg (by rw [hv0]; exact Bool.false_ne_true),
            show anyDefined ((k2, v2) :: fs2) = true by
              rw [anyDefined]
              simp [hv2]]
          simp only [if_true, List.length_append, List.length_cons]
          simp at h1
          omega
    intro hs
    cases v with
    | undefined => exact absurd hs (by rw [serializableB]; simp)
    | stream sid => exact absurd hs (by rw [serializableB]; simp)
    | null =>
      rw [jsize, serialize, nullChars]
      simp
    | bool b =>
      cases b <;> rw [jsize, serialize] <;> simp [trueChars, falseChars]
    | num i =>
      rw [jsize, serialize_num_eq]
      by_cases hneg : i < 0
      · rw [if_pos hneg]
        simp
      · rw [if_neg hneg]
        obtain ⟨c, t, hct, _⟩ := natDigitsAux_head (i.natAbs + 1) i.natAbs (by omega)
        rw [natDigits, hct]
        simp
    | str s =>
      rw [jsize, serialize, serializeKey]
      simp
    | arr xs =>
      rw [serializableB] at hs
      rw [jsize, serialize]
      have := hitems xs (fun x hx hsx => ihv x (sizeOf_lt_arr hx) hsx) hs
      simp only [List.length_cons, List.length_append]
      simp
      omega
    | obj fs =>
      rw [serializableB, Bool.and_eq_true] at hs
      rw [jsize, serialize]
      have := hmems fs (fun kv hkv hskv => ihv kv.2 (sizeOf_lt_obj hkv) hskv) hs.2
      simp only [List.length_cons, List.length_append]
      simp
      omega

theorem jparse_serialize {v : JSVal} (h : serializableB v = true) :
    jparse ⟨serialize v⟩ = some v := by
  rw [jparse]
  have hrt := (parse_serialize_mutual ((serialize v).length + 1)).1 v [] h
    (by have := jsize_le_serialize v h; omega) rfl
  rw [List.append_nil] at hrt
  rw [show (String.mk (serialize v)).toList = serialize v from rfl]
  rw [hrt]
  rfl

/-! ## The JSON-RPC envelope codec (src/transport/json-rpc.js) -/

/-- From the source: `createJsonRpcRequest(id, method, params)` builds
`\x7b jsonrpc: '2.0', id, method, params \x7d`. -/
def createJsonRpcRequest (id method params : JSVal) : JSVal :=
  .obj [("jsonrpc", .str "2.0"), ("id", id), ("method", method), ("params", params)]

/-- From the source: `createJsonRpcNotification(method, params)`. -/
def createJsonRpcNotification (method params : JSVal) : JSVal :=
  .obj [("jsonrpc", .str "2.0"), ("method", method), ("params", params)]

/-- From the source: `createJsonRpcSuccessResponse(id, result)`; `result ?? null`
turns a missing (`undefined`) or `null` result into `null`. -/
def createJsonRpcSuccessResponse (id result : JSVal) : JSVal :=
  .obj [("jsonrpc", .str "2.0"), ("id", id),
    ("result", match result with
      | .undefined => .null
      | .null => .null
      | v => v)]

/-- From the source: `createJsonRpcErrorResponse(id, code, message, data)`
builds `error = \x7b code, message \x7d` and appends a `data` property only
when the argument is not `undefined`; a call that omits the argument passes
`undefined`. -/
def createJsonRpcErrorResponse (id code message data : JSVal) : JSVal :=
  .obj [("jsonrpc", .str "2.0"), ("id", id),
    ("error", .obj ([("code", code), ("message", message)] ++
      (if data = .undefined then [] else [("data", data)])))]

/-! ## External decoding collaborators -/

/-- Value of one character of the base64url alphabet. -/
def b64UrlVal (c : Char) : Option Nat :=
  if 65 ≤ c.toNat ∧ c.toNat ≤ 90 then some (c.toNat - 65)
  else if 97 ≤ c.toNat ∧ c.toNat ≤ 122 then some (c.toNat - 71)
  else if 48 ≤ c.toNat ∧ c.toNat ≤ 57 then some (c.toNat + 4)
  else if c = '-' then some 62
  else if c = '_' then some 63
  else none

/-- Decode unpadded base64url text into bytes: four characters to three
bytes, a two- or three-character tail to one or two bytes, a single trailing
character is malformed. -/
def b64UrlDecodeBytes : List Char → Option (List Nat)
  | [] => some []
  | [_] => none
  | [a, b] => do
    let va ← b64UrlVal a
    let vb ← b64UrlVal b
    pure [va * 4 + vb / 16]
  | [a, b, c] => do
    let va ← b64UrlVal a
    let vb ← b64UrlVal b
    let vc ← b64UrlVal c
    pure [va * 4 + vb / 16, vb % 16 * 16 + vc / 4]
  | a :: b :: c :: d :: rest => do
    let va ← b64UrlVal a
    let vb ← b64UrlVal b
    let vc ← b64UrlVal c
    let vd ← b64UrlVal d
    let tail ← b64UrlDecodeBytes rest
    pure ((va * 4 + vb / 16) :: (vb % 16 * 16 + vc / 4) :: ((vc % 4 * 64 + vd) :: tail))

/-- Bytes read back as text, one byte per character; the JSON this code
decodes is ASCII in the model. -/
def bytesToString (bs : List Nat) : String := ⟨bs.map Char.ofNat⟩

/-- Modelled at the interface boundary of the external protocol library:
`Encoder.base64UrlToObject` (from the node SDK, out of scope per §1) decodes
base64url text to bytes and parses them as JSON; malformed input throws
(`none`). -/
def base64UrlToObject (s : String) : Option JSVal :=
  (b64UrlDecodeBytes s.toList).bind (fun bs => jparse (bytesToString bs))

/-- Modelled from the spec: `parseJson` from src/utils.js is not among the
sources; §4.2 says `decodeMessage` is "pure (de)serialization" that "must
fail only on malformed input", so it is JSON parsing of the wire text. -/
def parseJson (s : String) : Option JSVal := jparse s

/-! ## HttpTransport (src/transport/http-transport.js) -/

/-- The logical request `send` transmits: an opaque structured `message`,
the explicit identity fields, and an optional raw body payload. -/
structure LogicalRequest where
  message : JSVal
  author : JSVal
  target : JSVal
  data : Option JSVal
  deriving DecidableEq

/-- From the source: `encodeMessage(message)` is `JSON.stringify(message)`. -/
def encodeMessage (message : JSVal) : Option String := jstringify message

/-- From the source: `decodeMessage(message)` is `parseJson(message)`. -/
def decodeMessage (message : String) : Option JSVal := parseJson message

/-- The `params` of the JSON-RPC request `send` builds:
`\x7b ...request.message, author: request.author, target: request.target \x7d`,
the spread of the message followed by the two explicit property definitions.
-/
def dwnRequestParams (req : LogicalRequest) : List (String × JSVal) :=
  oset (oset (spreadFields req.message) "author" req.author) "target" req.target

/-- The JSON-RPC request `send` builds, method fixed to `dwn.processMessage`;
`requestId` stands for the `uuidv4()` correlation id generated per call. -/
def dwnRequest (requestId : JSVal) (req : LogicalRequest) : JSVal :=
  createJsonRpcRequest requestId (.str "dwn.processMessage") (.obj (dwnRequestParams req))

/-- The HTTP exchange `send` performs, as the network observes it: a POST
with CORS on and caching off, the encoded envelope in the `dwn-request`
header, the raw payload as the request body. -/
structure FetchCall where
  endpoint : String
  httpMethod : String
  mode : String
  cache : String
  dwnRequestHeader : Option String
  body : Option JSVal
  deriving DecidableEq

/-- The fetch call `send` makes for a request. -/
def buildFetchCall (endpoint : String) (requestId : JSVal) (req : LogicalRequest) :
    FetchCall :=
  { endpoint := endpoint, httpMethod := "POST", mode := "cors", cache := "no-cache",
    dwnRequestHeader := encodeMessage (dwnRequest requestId req), body := req.data }

/-- One HTTP response as fetch delivers it: status, headers, the text of the
body (what `response.json()` would parse), and the handle of the body stream
(`response.body`). -/
structure HttpResponse where
  status : Nat
  headers : List (String × String)
  bodyText : String
  bodyStreamId : Nat
  deriving DecidableEq

/-- Lower-case one ASCII character; header names compare case-insensitively.
-/
def lowerChar (c : Char) : Char :=
  if 65 ≤ c.toNat ∧ c.toNat ≤ 90 then Char.ofNat (c.toNat + 32) else c

/-- Lower-case a header name. -/
def lowerStr (s : String) : String := ⟨s.toList.map lowerChar⟩

/-- `response.headers.get(name)`: case-insensitive lookup, `null` (`none`)
when the header is absent. -/
def headerGet : List (String × String) → String → Option String
  | [], _ => none
  | (k, v) :: rest, name =>
    if lowerStr k = lowerStr name then some v else headerGet rest name

/-- The source gates each branch with `if (header)`: an absent header reads
as `null` and an empty string is falsy, so both skip the branch. -/
def headerTruthy (headers : List (String × String)) (name : String) : Option String :=
  match headerGet headers name with
  | some s => if s = "" then none else some s
  | none => none

/-- `response.ok`: status in the 2xx range. -/
def responseOk (status : Nat) : Bool := 200 ≤ status && status ≤ 299

/-- How one `send` call fails: the fetch itself rejects (connection),
a non-2xx status throws the transport error, or decoding of a header or the
body throws. -/
inductive SendFailure where
  | connection : SendFailure
  | transport : Nat → SendFailure
  | decode : SendFailure
  deriving DecidableEq

/-- Result of one `send` call. -/
inductive SendOutcome where
  | ok : JSVal → SendOutcome
  | fail : SendFailure → SendOutcome
  deriving DecidableEq

/-- Demultiplex one header-carried reply: destructure
`const \x7b entries = null, message, record, status \x7d = reply`
(destructuring `undefined` or `null` throws) and rebuild the reply with the
record data field replaced by the response body stream, which the source
writes `record: \x7b ...record, data: response.body \x7d`. -/
def demuxHeaderReply (reply : JSVal) (streamId : Nat) : Option JSVal :=
  match reply with
  | .undefined => none
  | .null => none
  | v => some (.obj [
      ("entries", if dget v "entries" = .undefined then .null else dget v "entries"),
      ("message", dget v "message"),
      ("record", .obj (oset (spreadFields (dget v "record")) "data" (.stream streamId))),
      ("status", dget v "status")])

/-- `responseJson.result.reply`: two property reads, each throwing on a
`null`/`undefined` receiver. -/
def resultReply (v : JSVal) : Option JSVal :=
  (propGet v "result").bind (fun r => propGet r "reply")

/-- Processing of the HTTP response inside `send` (http-transport.js lines
55-79): a non-2xx status throws before any header or body is read; otherwise
the reply is demultiplexed in fixed priority order: the legacy
`WEB5-RESPONSE` header (base64url JSON, body stream substituted into the
record), else the `dwn-response` header (JSON-RPC envelope, `result.reply`
unwrapped, same substitution), else the whole body parsed as JSON with
`result.reply` returned as is. -/
def processResponse (resp : HttpResponse) : SendOutcome :=
  if responseOk resp.status = false then .fail (.transport resp.status)
  else
    match headerTruthy resp.headers "WEB5-RESPONSE" with
    | some hdr =>
      match base64UrlToObject hdr with
      | none => .fail .decode
      | some o =>
        match demuxHeaderReply o resp.bodyStreamId with
        | some reply => .ok reply
        | none => .fail .decode
    | none =>
      match headerTruthy resp.headers "dwn-response" with
      | some hdr =>
        match decodeMessage hdr with
        | none => .fail .decode
        | some j =>
          match resultReply j with
          | none => .fail .decode
          | some reply =>
            match demuxHeaderReply reply resp.bodyStreamId with
            | some out => .ok out
            | none => .fail .decode
      | none =>
        match decodeMessage resp.bodyText with
        | none => .fail .decode
        | some j =>
          match resultReply j with
          | none => .fail .decode
          | some reply => .ok reply

/-- `HttpTransport.send`, one call end to end: build the envelope and the
fetch call, perform exactly one exchange (the head of `responses`, the
successive responses the endpoint would return; an empty list is a
connection failure), and process that one response.  The responses left
unconsumed come back unchanged: this layer performs no retry. -/
def send (endpoint : String) (requestId : JSVal) (req : LogicalRequest)
    (responses : List HttpResponse) :
    FetchCall × SendOutcome × List HttpResponse :=
  (buildFetchCall endpoint requestId req,
    match responses with
    | [] => (.fail .connection, [])
    | resp :: rest => (processResponse resp, rest))

/-! ## The Record data accessor

The Record class itself (src/dwn/models/record.js) is not among the sources
here — only its tests are — so the Data Accessor below is modelled from the
spec, §3 (DataSource) and §4.4 (the accessor state machine), and is checked
for consistency against the behaviour the tests assert. -/

/-- Modelled from the spec: §3 Variant C resolves through "a function
injected at construction that performs a read operation against the owning
node, returning a stream or bytes exactly once"; this is what that fetch
resolves to. -/
inductive FetchResult where
  | bytes : List Nat → FetchResult
  | stream : List Nat → FetchResult
  deriving DecidableEq

/-- Modelled from the spec: §3 DataSource — Variant A `encodedBytes` (an
already-available buffer), Variant B `stream` (consumable at most once, its
eventual contents listed), Variant C `absent` (payload produced by the
deferred fetch). -/
inductive DataSource where
  | encodedBytes : List Nat → DataSource
  | stream : List Nat → DataSource
  | absent : FetchResult → DataSource
  deriving DecidableEq

/-- Modelled from the spec: §7 — `StreamExhaustedError` on any read after a
stream-backed payload was consumed once; a decode failure on malformed
payload bytes. -/
inductive AccessError where
  | streamExhausted : AccessError
  | decodeError : AccessError
  deriving DecidableEq

/-- Result of one `record.data.json()` call. -/
inductive ReadResult where
  | ok : JSVal → ReadResult
  | err : AccessError → ReadResult
  deriving DecidableEq

/-- Payload bytes decoded as JSON. -/
def decodeJsonBytes (bytes : List Nat) : Option JSVal := jparse (bytesToString bytes)

/-- Modelled from the spec: §4.4 — the accessor state.  `unread` before the
first call; `buffered` when the bytes sit in a repeatable buffer, the decoded
value memoized after the first successful decode; `consumed` once a one-shot
stream has been drained.  The spec names no reset or rewind operation, and
the model has none: `readJson` below is the state's only transition. -/
inductive AccState where
  | unread : AccState
  | buffered : List Nat → Option JSVal → AccState
  | consumed : AccState
  deriving DecidableEq

/-- A Record's data accessor: its payload source and its read state. -/
structure Accessor where
  source : DataSource
  state : AccState
  deriving DecidableEq

/-- A freshly constructed Record's accessor. -/
def Accessor.init (src : DataSource) : Accessor := ⟨src, .unread⟩

/-- Observable work done by one read: fetches against the owning node,
stream consumptions, and JSON decodes.  A memoized repeat does none of the
three — the observable content of the spec's "repeated calls complete
fast". -/
structure ReadEffects where
  fetches : Nat
  consumptions : Nat
  decodes : Nat
  deriving DecidableEq

/-- Modelled from the spec: §4.4 — one `record.data.json()` call.  A held
buffer decodes repeatably and memoizes the decoded value; a stream is
consumed whole by the first call and every later call rejects with
`StreamExhaustedError`; Variant C first performs the deferred fetch, then
behaves as whichever shape the fetch returned. -/
def readJson : Accessor → ReadResult × Accessor × ReadEffects
  | ⟨src, .consumed⟩ => (.err .streamExhausted, ⟨src, .consumed⟩, ⟨0, 0, 0⟩)
  | ⟨src, .buffered b (some v)⟩ => (.ok v, ⟨src, .buffered b (some v)⟩, ⟨0, 0, 0⟩)
  | ⟨src, .buffered b none⟩ =>
    (match decodeJsonBytes b with
      | some v => (.ok v, ⟨src, .buffered b (some v)⟩, ⟨0, 0, 1⟩)
      | none => (.err .decodeError, ⟨src, .buffered b none⟩, ⟨0, 0, 1⟩))
  | ⟨src, .unread⟩ =>
    match src with
    | .encodedBytes b =>
      (match decodeJsonBytes b with
        | some v => (.ok v, ⟨src, .buffered b (some v)⟩, ⟨0, 0, 1⟩)
        | none => (.err .decodeError, ⟨src, .buffered b none⟩, ⟨0, 0, 1⟩))
    | .stream s =>
      ((match decodeJsonBytes s with
        | some v => .ok v
        | none => .err .decodeError), ⟨src, .consumed⟩, ⟨0, 1, 1⟩)
    | .absent (.bytes b) =>
      (match decodeJsonBytes b with
        | some v => (.ok v, ⟨src, .buffered b (some v)⟩, ⟨1, 0, 1⟩)
        | none => (.err .decodeError, ⟨src, .buffered b none⟩, ⟨1, 0, 1⟩))
    | .absent (.stream s) =>
      ((match decodeJsonBytes s with
        | some v => .ok v
        | none => .err .decodeError), ⟨src, .consumed⟩, ⟨1, 1, 1⟩)

/-- A sequence of `n` reads on one Record: each result with its effects, and
the final accessor. -/
def runReads : Nat → Accessor → List (ReadResult × ReadEffects) × Accessor
  | 0, a => ([], a)
  | n + 1, a =>
    let r := readJson a
    let t := runReads n r.2.1
    ((r.1, r.2.2) :: t.1, t.2)

/-! ## The single-flight guard

Modelled from the spec: §4.4 and §5 — reads within one Record are serialized
by "an internal single-flight guard (a held future/promise that late callers
attach to rather than re-triggering work)".  The in-flight window is made
explicit: `sfBegin` is a caller invoking the read, `sfComplete` is the held
decode finishing and delivering its outcome to every attached caller. -/

/-- Phase of the guard: no read yet, a decode in flight with the count of
attached callers, or settled with its outcome. -/
inductive SFPhase where
  | idle : SFPhase
  | inflight : Nat → SFPhase
  | settled : ReadResult → SFPhase
  deriving DecidableEq

/-- The accessor seen through the single-flight guard, with cumulative
fetch and stream-consumption counters. -/
structure SFAcc where
  source : DataSource
  phase : SFPhase
  fetches : Nat
  consumptions : Nat
  deriving DecidableEq

/-- A fresh Record: nothing read, nothing fetched, nothing consumed. -/
def SFAcc.init (src : DataSource) : SFAcc := ⟨src, .idle, 0, 0⟩

/-- The outcome the in-flight decode settles on: the payload bytes decoded,
or the decode failure. -/
def sfOutcome (src : DataSource) : ReadResult :=
  match decodeJsonBytes (match src with
    | .encodedBytes b => b
    | .stream s => s
    | .absent (.bytes b) => b
    | .absent (.stream s) => s) with
  | some v => .ok v
  | none => .err .decodeError

/-- Fetches the first read triggers: one for Variant C, none otherwise. -/
def sfFetchCost : DataSource → Nat
  | .absent _ => 1
  | _ => 0

/-- Stream consumptions the first read triggers: one for a stream-backed
source, none for a buffer. -/
def sfConsumeCost : DataSource → Nat
  | .stream _ => 1
  | .absent (.stream _) => 1
  | _ => 0

/-- A caller invokes the read.  The first caller starts the work — the
deferred fetch for Variant C, the stream consumption for a stream-backed
source; a caller arriving while the phase is Materializing only attaches to
the in-flight decode: no second fetch, no second consumption. -/
def sfBegin (a : SFAcc) : SFAcc :=
  match a.phase with
  | .idle =>
    { a with
      phase := .inflight 1
      fetches := a.fetches + sfFetchCost a.source
      consumptions := a.consumptions + sfConsumeCost a.source }
  | .inflight w => { a with phase := .inflight (w + 1) }
  | .settled _ => a

/-- The in-flight decode finishes: every attached caller observes the same
outcome, in flight-order. -/
def sfComplete (a : SFAcc) : List ReadResult × SFAcc :=
  match a.phase with
  | .inflight w =>
    (List.replicate w (sfOutcome a.source), { a with phase := .settled (sfOutcome a.source) })
  | _ => ([], a)

/-! ## Helper lemmas for the claims -/

theorem oget_oset_same (l : List (String × JSVal)) (k : String) (v : JSVal) :
    oget (oset l k v) k = v := by
  induction l with
  | nil => simp [oset, oget]
  | cons kv rest ih =>
    obtain ⟨k1, v1⟩ := kv
    by_cases h : k1 = k
    · subst h
      rw [oset, if_pos rfl, oget, if_pos rfl]
    · rw [oset, if_neg h, oget, if_neg h, ih]

theorem oget_oset_other (l : List (String × JSVal)) (k k2 : String) (v : JSVal)
    (h : k2 ≠ k) : oget (oset l k v) k2 = oget l k2 := by
  induction l with
  | nil =>
    simp only [oset, oget]
    rw [if_neg (fun he => h he.symm)]
  | cons kv rest ih =>
    obtain ⟨k1, v1⟩ := kv
    by_cases h1 : k1 = k
    · subst h1
      rw [oset, if_pos rfl, oget, if_neg (fun he => h he.symm), oget,
        if_neg (fun he => h he.symm)]
    · rw [oset, if_neg h1, oget, oget]
      by_cases h2 : k1 = k2
      · rw [if_pos h2, if_pos h2]
      · rw [if_neg h2, if_neg h2, ih]

/-- Whether a value is an object carrying an own property named `key`. -/
def hasKeyJ : JSVal → String → Bool
  | .obj fs, key => hasKey fs key
  | _, _ => false

theorem demuxHeaderReply_of_ne {reply : JSVal} (streamId : Nat)
    (h1 : reply ≠ .undefined) (h2 : reply ≠ .null) :
    demuxHeaderReply reply streamId = some (.obj [
      ("entries", if dget reply "entries" = .undefined then .null else dget reply "entries"),
      ("message", dget reply "message"),
      ("record", .obj (oset (spreadFields (dget reply "record")) "data" (.stream streamId))),
      ("status", dget reply "status")]) := by
  cases reply with
  | undefined => exact absurd rfl h1
  | null => exact absurd rfl h2
  | bool b => rfl
  | num i => rfl
  | str s => rfl
  | arr xs => rfl
  | obj fs => rfl
  | stream sid => rfl

theorem runReads_consumed : ∀ (n : Nat) (src : DataSource),
    runReads n ⟨src, .consumed⟩ =
      (List.replicate n (.err .streamExhausted, ⟨0, 0, 0⟩), ⟨src, .consumed⟩) := by
  intro n
  induction n with
  | zero => intro src; rfl
  | succ n ih =>
    intro src
    rw [runReads]
    simp only [readJson, ih src, List.replicate_succ]

theorem runReads_cached : ∀ (n : Nat) (src : DataSource) (b : List Nat) (v : JSVal),
    runReads n ⟨src, .buffered b (some v)⟩ =
      (List.replicate n (.ok v, ⟨0, 0, 0⟩), ⟨src, .buffered b (some v)⟩) := by
  intro n
  induction n with
  | zero => intro src b v; rfl
  | succ n ih =>
    intro src b v
    rw [runReads]
    simp only [readJson, ih src b v, List.replicate_succ]

theorem runReads_encodedBytes (b : List Nat) (v : JSVal) (n : Nat)
    (h : decodeJsonBytes b = some v) :
    runReads (n + 1) (Accessor.init (.encodedBytes b)) =
      ((.ok v, ⟨0, 0, 1⟩) :: List.replicate n (.ok v, ⟨0, 0, 0⟩),
        ⟨.encodedBytes b, .buffered b (some v)⟩) := by
  rw [Accessor.init, runReads]
  simp only [readJson, h, runReads_cached]

theorem runReads_absentBytes (b : List Nat) (v : JSVal) (n : Nat)
    (h : decodeJsonBytes b = some v) :
    runReads (n + 1) (Accessor.init (.absent (.bytes b))) =
      ((.ok v, ⟨1, 0, 1⟩) :: List.replicate n (.ok v, ⟨0, 0, 0⟩),
        ⟨.absent (.bytes b), .buffered b (some v)⟩) := by
  rw [Accessor.init, runReads]
  simp only [readJson, h, runReads_cached]

/-! ## The claims -/

/-- C2: a Record constructed with a data stream and no encoded bytes answers
the first `record.data.json()` call with the decoded JSON value, consuming
the whole stream; every one of the `n` subsequent calls on the same Record
rejects with `StreamExhaustedError`, and the accessor is pinned in the
consumed state — `readJson` is its only operation, so no reset or rewind
exists. -/
theorem C2_stream_json_one_shot (s : List Nat) (v : JSVal) (n : Nat)
    (h : decodeJsonBytes s = some v) :
    runReads (n + 1) (Accessor.init (.stream s)) =
      ((.ok v, ⟨0, 1, 1⟩) :: List.replicate n (.err .streamExhausted, ⟨0, 0, 0⟩),
        ⟨.stream s, .consumed⟩) := by
  rw [Accessor.init, runReads]
  simp only [readJson, h, runReads_consumed]

/-- C2 witness: the stream carrying the bytes of `[7]`, read three times. -/
theorem C2_stream_json_one_shot_witness :
    decodeJsonBytes [91, 55, 93] = some (.arr [.num 7]) ∧
    runReads 3 (Accessor.init (.stream [91, 55, 93])) =
      ((.ok (.arr [.num 7]), ⟨0, 1, 1⟩) ::
        List.replicate 2 (.err .streamExhausted, ⟨0, 0, 0⟩),
        ⟨.stream [91, 55, 93], .consumed⟩) :=
  ⟨by decide, C2_stream_json_one_shot [91, 55, 93] (.arr [.num 7]) 2 (by decide)⟩

/-- C3: a Record constructed with `encodedData` bytes answers every
`record.data.json()` call with the identical decoded value; the first call
performs the one decode and memoizes it, and each of the `n` later calls
performs no fetch, no consumption and no decode — it returns the cached
already-parsed value, which is the behaviour behind "no slower than a fixed
short bound". -/
theorem C3_encoded_json_memoized (b : List Nat) (v : JSVal) (n : Nat)
    (h : decodeJsonBytes b = some v) :
    runReads (n + 1) (Accessor.init (.encodedBytes b)) =
      ((.ok v, ⟨0, 0, 1⟩) :: List.replicate n (.ok v, ⟨0, 0, 0⟩),
        ⟨.encodedBytes b, .buffered b (some v)⟩) :=
  runReads_encodedBytes b v n h

/-- C3 witness: the bytes of `[7]` held as encoded data, read three times. -/
theorem C3_encoded_json_memoized_witness :
    decodeJsonBytes [91, 55, 93] = some (.arr [.num 7]) ∧
    runReads 3 (Accessor.init (.encodedBytes [91, 55, 93])) =
      ((.ok (.arr [.num 7]), ⟨0, 0, 1⟩) :: List.replicate 2 (.ok (.arr [.num 7]), ⟨0, 0, 0⟩),
        ⟨.encodedBytes [91, 55, 93], .buffered [91, 55, 93] (some (.arr [.num 7]))⟩) :=
  ⟨by decide, C3_encoded_json_memoized [91, 55, 93] (.arr [.num 7]) 2 (by decide)⟩

/-- C4: a Record constructed with neither encoded bytes nor a stream
(Variant C) whose deferred fetch returns bytes decodes every call from the
held buffer — the first call performs the one fetch and decode, every later
call returns the memoized value — and from the second call on the run is
identical to that of a Record constructed with `encodedData`. -/
theorem C4_deferred_bytes_repeatable (b : List Nat) (v : JSVal) (n : Nat)
    (h : decodeJsonBytes b = some v) :
    runReads (n + 1) (Accessor.init (.absent (.bytes b))) =
      ((.ok v, ⟨1, 0, 1⟩) :: List.replicate n (.ok v, ⟨0, 0, 0⟩),
        ⟨.absent (.bytes b), .buffered b (some v)⟩) ∧
    (runReads (n + 1) (Accessor.init (.absent (.bytes b)))).1.tail =
      (runReads (n + 1) (Accessor.init (.encodedBytes b))).1.tail := by
  constructor
  · exact runReads_absentBytes b v n h
  · rw [runReads_absentBytes b v n h, runReads_encodedBytes b v n h]
    rfl

/-- C4 witness: a deferred fetch resolving to the bytes of `[7]`, read three
times. -/
theorem C4_deferred_bytes_repeatable_witness :
    decodeJsonBytes [91, 55, 93] = some (.arr [.num 7]) ∧
    (runReads 3 (Accessor.init (.absent (.bytes [91, 55, 93]))) =
      ((.ok (.arr [.num 7]), ⟨1, 0, 1⟩) :: List.replicate 2 (.ok (.arr [.num 7]), ⟨0, 0, 0⟩),
        ⟨.absent (.bytes [91, 55, 93]), .buffered [91, 55, 93] (some (.arr [.num 7]))⟩) ∧
    (runReads 3 (Accessor.init (.absent (.bytes [91, 55, 93])))).1.tail =
      (runReads 3 (Accessor.init (.encodedBytes [91, 55, 93]))).1.tail) :=
  ⟨by decide, C4_deferred_bytes_repeatable [91, 55, 93] (.arr [.num 7]) 2 (by decide)⟩

/-- C9: a second read call arriving while the first is still in flight
(Materializing) triggers no second stream consumption and no second fetch —
it only attaches to the in-flight decode — at most one consumption and one
fetch happen in total, and when the decode settles both callers observe the
same outcome, success or the one-shot failure alike. -/
theorem C9_single_flight_concurrent_read (src : DataSource) :
    (sfBegin (sfBegin (SFAcc.init src))).consumptions =
      (sfBegin (SFAcc.init src)).consumptions ∧
    (sfBegin (sfBegin (SFAcc.init src))).fetches = (sfBegin (SFAcc.init src)).fetches ∧
    (sfBegin (sfBegin (SFAcc.init src))).consumptions ≤ 1 ∧
    (sfBegin (sfBegin (SFAcc.init src))).fetches ≤ 1 ∧
    (sfComplete (sfBegin (sfBegin (SFAcc.init src)))).1 =
      [sfOutcome src, sfOutcome src] := by
  refine ⟨?_, ?_, ?_, ?_, ?_⟩ <;>
    cases src with
    | absent fr =>
      cases fr <;>
        simp [SFAcc.init, sfBegin, sfFetchCost, sfConsumeCost, sfComplete,
          List.replicate]
    | _ =>
      simp [SFAcc.init, sfBegin, sfFetchCost, sfConsumeCost, sfComplete,
        List.replicate]

/-- C5: `send` builds a JSON-RPC request envelope whose method is the single
fixed message-processing method `dwn.processMessage` and whose params is the
flat merge of the message fields with the identity fields: `author` and
`target` read back as the explicit request values — overwriting any
same-named keys already inside the message, so explicit identity wins —
while every other key reads back exactly as from the spread message. -/
theorem C5_request_params_merge (requestId : JSVal) (req : LogicalRequest) (k : String)
    (hk1 : k ≠ "author") (hk2 : k ≠ "target") :
    oget (dwnRequestParams req) "author" = req.author ∧
    oget (dwnRequestParams req) "target" = req.target ∧
    oget (dwnRequestParams req) k = oget (spreadFields req.message) k ∧
    dget (dwnRequest requestId req) "method" = .str "dwn.processMessage" ∧
    dget (dwnRequest requestId req) "params" = .obj (dwnRequestParams req) ∧
    dget (dwnRequest requestId req) "id" = requestId := by
  refine ⟨?_, ?_, ?_, ?_, ?_, ?_⟩
  · rw [dwnRequestParams, oget_oset_other _ _ _ _ (by decide), oget_oset_same]
  · rw [dwnRequestParams, oget_oset_same]
  · rw [dwnRequestParams, oget_oset_other _ _ _ _ hk2, oget_oset_other _ _ _ _ hk1]
  · simp [dwnRequest, createJsonRpcRequest, dget, oget]
  · simp [dwnRequest, createJsonRpcRequest, dget, oget]
  · simp [dwnRequest, createJsonRpcRequest, dget, oget]

/-- C5 witness: a message that already carries a conflicting `author` key;
the explicit identity wins and the other field passes through. -/
theorem C5_request_params_merge_witness :
    oget (dwnRequestParams ⟨.obj [("author", .str "intruder"), ("schema", .str "foo/bar")],
      .str "did:alice", .str "did:target", none⟩) "author" = .str "did:alice" ∧
    oget (dwnRequestParams ⟨.obj [("author", .str "intruder"), ("schema", .str "foo/bar")],
      .str "did:alice", .str "did:target", none⟩) "target" = .str "did:target" ∧
    oget (dwnRequestParams ⟨.obj [("author", .str "intruder"), ("schema", .str "foo/bar")],
      .str "did:alice", .str "did:target", none⟩) "schema" =
      oget (spreadFields (.obj [("author", .str "intruder"), ("schema", .str "foo/bar")]))
        "schema" ∧
    dget (dwnRequest (.str "uuid-1")
      ⟨.obj [("author", .str "intruder"), ("schema", .str "foo/bar")],
        .str "did:alice", .str "did:target", none⟩) "method" = .str "dwn.processMessage" ∧
    dget (dwnRequest (.str "uuid-1")
      ⟨.obj [("author", .str "intruder"), ("schema", .str "foo/bar")],
        .str "did:alice", .str "did:target", none⟩) "params" =
      .obj (dwnRequestParams ⟨.obj [("author", .str "intruder"), ("schema", .str "foo/bar")],
        .str "did:alice", .str "did:target", none⟩) ∧
    dget (dwnRequest (.str "uuid-1")
      ⟨.obj [("author", .str "intruder"), ("schema", .str "foo/bar")],
        .str "did:alice", .str "did:target", none⟩) "id" = .str "uuid-1" :=
  C5_request_params_merge (.str "uuid-1")
    ⟨.obj [("author", .str "intruder"), ("schema", .str "foo/bar")],
      .str "did:alice", .str "did:target", none⟩ "schema" (by decide) (by decide)

/-- C6: an HTTP exchange answered with a non-2xx status makes `send` fail
with the transport error before any envelope header or body decoding —
the outcome does not depend on the headers or the body text — and this
layer performs no retry: exactly the one response is consumed. -/
theorem C6_non2xx_hard_transport_failure (endpoint : String) (requestId : JSVal)
    (req : LogicalRequest) (status : Nat) (headers : List (String × String))
    (bodyText : String) (streamId : Nat) (rest : List HttpResponse)
    (h : responseOk status = false) :
    (send endpoint requestId req (⟨status, headers, bodyText, streamId⟩ :: rest)).2 =
      (.fail (.transport status), rest) := by
  rw [send]
  simp [processResponse, h]

/-- C6 witness: a 500 response that even carries a well-formed envelope
header; `send` still fails with the transport error and leaves the
remaining responses untouched. -/
theorem C6_non2xx_hard_transport_failure_witness :
    (send "http://localhost" (.str "uuid-1") ⟨.obj [], .str "a", .str "t", none⟩
      (⟨500, [("dwn-response", "junk")], "junk", 0⟩ ::
        [⟨200, [], "null", 1⟩])).2 =
      (.fail (.transport 500), [⟨200, [], "null", 1⟩]) :=
  C6_non2xx_hard_transport_failure "http://localhost" (.str "uuid-1")
    ⟨.obj [], .str "a", .str "t", none⟩ 500 [("dwn-response", "junk")] "junk" 0
    [⟨200, [], "null", 1⟩] (by decide)

/-- C7: `createJsonRpcErrorResponse` without a data argument (JavaScript
passes `undefined`) yields an error member with no `data` key at all; with
any data value other than `undefined` — `null` included — the `data` key is
present and holds exactly that value. -/
theorem C7_error_response_data_key (id code message data : JSVal)
    (h : data ≠ .undefined) :
    hasKeyJ (dget (createJsonRpcErrorResponse id code message .undefined) "error") "data" =
      false ∧
    hasKeyJ (dget (createJsonRpcErrorResponse id code message data) "error") "data" =
      true ∧
    dget (dget (createJsonRpcErrorResponse id code message data) "error") "data" = data := by
  refine ⟨?_, ?_, ?_⟩
  · simp [createJsonRpcErrorResponse, dget, oget, hasKeyJ, hasKey]
  · simp [createJsonRpcErrorResponse, dget, oget, hasKeyJ, hasKey, h]
  · simp [createJsonRpcErrorResponse, dget, oget, h]

/-- C7 witness at `data := null`: the key is absent when the argument is
omitted and present holding `null` when `null` is passed explicitly. -/
theorem C7_error_response_data_key_witness :
    hasKeyJ (dget (createJsonRpcErrorResponse (.num 1) (.num (-50400)) (.str "Bad Request")
      .undefined) "error") "data" = false ∧
    hasKeyJ (dget (createJsonRpcErrorResponse (.num 1) (.num (-50400)) (.str "Bad Request")
      .null) "error") "data" = true ∧
    dget (dget (createJsonRpcErrorResponse (.num 1) (.num (-50400)) (.str "Bad Request")
      .null) "error") "data" = .null :=
  C7_error_response_data_key (.num 1) (.num (-50400)) (.str "Bad Request") .null
    (by decide)

/-- C8: for every serializable id and params and every method string, the
envelope built by `createJsonRpcRequest` round-trips unchanged through
`encodeMessage` followed by `decodeMessage`. -/
theorem C8_envelope_round_trip (id params : JSVal) (method : String)
    (hid : serializableB id = true) (hparams : serializableB params = true) :
    (encodeMessage (createJsonRpcRequest id (.str method) params)).bind decodeMessage =
      some (createJsonRpcRequest id (.str method) params) := by
  have hser : serializableB (createJsonRpcRequest id (.str method) params) = true := by
    rw [createJsonRpcRequest, serializableB, Bool.and_eq_true]
    constructor
    · simp
    · simp [serializableFieldsB, serializableB, hid, hparams]
  rw [encodeMessage, jstringify,
    if_neg (by rw [createJsonRpcRequest]; exact fun he => JSVal.noConfusion he)]
  rw [show (some (String.mk (serialize (createJsonRpcRequest id (.str method) params)))).bind
      decodeMessage =
    decodeMessage ⟨serialize (createJsonRpcRequest id (.str method) params)⟩ from rfl]
  rw [decodeMessage, parseJson, jparse_serialize hser]

/-- C8 witness at a small concrete envelope. -/
theorem C8_envelope_round_trip_witness :
    (encodeMessage (createJsonRpcRequest (.num 7) (.str "dwn.processMessage")
      (.obj [("a", .null), ("b", .arr [.num 1, .str "x"])]))).bind decodeMessage =
      some (createJsonRpcRequest (.num 7) (.str "dwn.processMessage")
        (.obj [("a", .null), ("b", .arr [.num 1, .str "x"])])) :=
  C8_envelope_round_trip (.num 7) (.obj [("a", .null), ("b", .arr [.num 1, .str "x"])])
    "dwn.processMessage" (by decide) (by decide)

/-- C1: for a 2xx response, `send` demultiplexes the reply in fixed priority
order.  When the legacy WEB5-RESPONSE header is present (and truthy) it is
decoded as base64url JSON into an `entries`/`message`/`record`/`status`
reply whose record data field is replaced with the response body stream;
otherwise, when the dwn-response header is present, it is decoded as a
JSON-RPC success envelope, `result.reply` is unwrapped, and the same body
stream substitution is made; otherwise the whole body is parsed as JSON and
`result.reply` is returned unchanged — no stream substitution in the body
branch. -/
theorem C1_send_demux_priority
    (resp1 resp2 resp3 : HttpResponse) (hdr1 hdr2 : String) (o1 j2 rep2 j3 rep3 : JSVal)
    (h1ok : responseOk resp1.status = true)
    (h1hdr : headerTruthy resp1.headers "WEB5-RESPONSE" = some hdr1)
    (h1dec : base64UrlToObject hdr1 = some o1)
    (h1u : o1 ≠ .undefined) (h1n : o1 ≠ .null)
    (h2ok : responseOk resp2.status = true)
    (h2w5 : headerTruthy resp2.headers "WEB5-RESPONSE" = none)
    (h2hdr : headerTruthy resp2.headers "dwn-response" = some hdr2)
    (h2dec : decodeMessage hdr2 = some j2)
    (h2rr : resultReply j2 = some rep2)
    (h2u : rep2 ≠ .undefined) (h2n : rep2 ≠ .null)
    (h3ok : responseOk resp3.status = true)
    (h3w5 : headerTruthy resp3.headers "WEB5-RESPONSE" = none)
    (h3dwn : headerTruthy resp3.headers "dwn-response" = none)
    (h3dec : decodeMessage resp3.bodyText = some j3)
    (h3rr : resultReply j3 = some rep3) :
    processResponse resp1 = .ok (.obj [
      ("entries", if dget o1 "entries" = .undefined then .null else dget o1 "entries"),
      ("message", dget o1 "message"),
      ("record", .obj (oset (spreadFields (dget o1 "record")) "data"
        (.stream resp1.bodyStreamId))),
      ("status", dget o1 "status")]) ∧
    processResponse resp2 = .ok (.obj [
      ("entries", if dget rep2 "entries" = .undefined then .null else dget rep2 "entries"),
      ("message", dget rep2 "message"),
      ("record", .obj (oset (spreadFields (dget rep2 "record")) "data"
        (.stream resp2.bodyStreamId))),
      ("status", dget rep2 "status")]) ∧
    processResponse resp3 = .ok rep3 := by
  refine ⟨?_, ?_, ?_⟩
  · rw [processResponse, if_neg (by simp [h1ok])]
    simp only [h1hdr, h1dec, demuxHeaderReply_of_ne resp1.bodyStreamId h1u h1n]
  · rw [processResponse, if_neg (by simp [h2ok])]
    simp only [h2w5, h2hdr, h2dec, h2rr,
      demuxHeaderReply_of_ne resp2.bodyStreamId h2u h2n]
  · rw [processResponse, if_neg (by simp [h3ok])]
    simp only [h3w5, h3dwn, h3dec, h3rr]

/-- C1 witness: three concrete 2xx responses, one per branch — a legacy
base64url header, a dwn-response envelope header, and a bare JSON body. -/
theorem C1_send_demux_priority_witness :
    processResponse ⟨200, [("WEB5-RESPONSE", "eyJzdGF0dXMiOjEsInJlY29yZCI6eyJ4Ijo1fX0")],
        "", 5⟩ =
      .ok (.obj [
        ("entries", .null),
        ("message", .undefined),
        ("record", .obj [("x", .num 5), ("data", .stream 5)]),
        ("status", .num 1)]) ∧
    processResponse ⟨204, [("dwn-response",
        "\x7b\"result\":\x7b\"reply\":\x7b\"status\":2\x7d\x7d\x7d")], "", 6⟩ =
      .ok (.obj [
        ("entries", .null),
        ("message", .undefined),
        ("record", .obj [("data", .stream 6)]),
        ("status", .num 2)]) ∧
    processResponse ⟨202, [],
        "\x7b\"result\":\x7b\"reply\":\x7b\"status\":3\x7d\x7d\x7d", 7⟩ =
      .ok (.obj [("status", .num 3)]) := by
  have h := C1_send_demux_priority
    ⟨200, [("WEB5-RESPONSE", "eyJzdGF0dXMiOjEsInJlY29yZCI6eyJ4Ijo1fX0")], "", 5⟩
    ⟨204, [("dwn-response",
      "\x7b\"result\":\x7b\"reply\":\x7b\"status\":2\x7d\x7d\x7d")], "", 6⟩
    ⟨202, [], "\x7b\"result\":\x7b\"reply\":\x7b\"status\":3\x7d\x7d\x7d", 7⟩
    "eyJzdGF0dXMiOjEsInJlY29yZCI6eyJ4Ijo1fX0"
    "\x7b\"result\":\x7b\"reply\":\x7b\"status\":2\x7d\x7d\x7d"
    (.obj [("status", .num 1), ("record", .obj [("x", .num 5)])])
    (.obj [("result", .obj [("reply", .obj [("status", .num 2)])])])
    (.obj [("status", .num 2)])
    (.obj [("result", .obj [("reply", .obj [("status", .num 3)])])])
    (.obj [("status", .num 3)])
    (by decide) (by decide) (by decide) (by decide) (by decide)
    (by decide) (by decide) (by decide) (by decide) (by decide)
    (by decide) (by decide) (by decide) (by decide) (by decide)
    (by decide) (by decide)
  refine ⟨?_, ?_, ?_⟩
  · rw [h.1]
    decide
  · rw [h.2.1]
    decide
  · exact h.2.2

/-- C10: in both header branches of a 2xx response, a decoded reply that
carries no record field at all still produces a non-null record object —
the spread of the absent record contributes nothing, so the reply's record
is exactly the object holding only the data field set to the HTTP response
body stream. -/
theorem C10_absent_record_still_stream_object
    (resp1 resp2 : HttpResponse) (hdr1 hdr2 : String) (o1 j2 rep2 : JSVal)
    (h1ok : responseOk resp1.status = true)
    (h1hdr : headerTruthy resp1.headers "WEB5-RESPONSE" = some hdr1)
    (h1dec : base64UrlToObject hdr1 = some o1)
    (h1u : o1 ≠ .undefined) (h1n : o1 ≠ .null)
    (h1norec : dget o1 "record" = .undefined)
    (h2ok : responseOk resp2.status = true)
    (h2w5 : headerTruthy resp2.headers "WEB5-RESPONSE" = none)
    (h2hdr : headerTruthy resp2.headers "dwn-response" = some hdr2)
    (h2dec : decodeMessage hdr2 = some j2)
    (h2rr : resultReply j2 = some rep2)
    (h2u : rep2 ≠ .undefined) (h2n : rep2 ≠ .null)
    (h2norec : dget rep2 "record" = .undefined) :
    processResponse resp1 = .ok (.obj [
      ("entries", if dget o1 "entries" = .undefined then .null else dget o1 "entries"),
      ("message", dget o1 "message"),
      ("record", .obj [("data", .stream resp1.bodyStreamId)]),
      ("status", dget o1 "status")]) ∧
    processResponse resp2 = .ok (.obj [
      ("entries", if dget rep2 "entries" = .undefined then .null else dget rep2 "entries"),
      ("message", dget rep2 "message"),
      ("record", .obj [("data", .stream resp2.bodyStreamId)]),
      ("status", dget rep2 "status")]) := by
  constructor
  · rw [processResponse, if_neg (by simp [h1ok])]
    simp only [h1hdr, h1dec, demuxHeaderReply_of_ne resp1.bodyStreamId h1u h1n,
      h1norec, spreadFields, oset]
  · rw [processResponse, if_neg (by simp [h2ok])]
    simp only [h2w5, h2hdr, h2dec, h2rr,
      demuxHeaderReply_of_ne resp2.bodyStreamId h2u h2n, h2norec, spreadFields, oset]

/-- C10 witness: replies whose decoded object has no record field at all, on
both header branches. -/
theorem C10_absent_record_still_stream_object_witness :
    processResponse ⟨200, [("WEB5-RESPONSE", "eyJzdGF0dXMiOjd9")], "", 5⟩ =
      .ok (.obj [
        ("entries", .null),
        ("message", .undefined),
        ("record", .obj [("data", .stream 5)]),
        ("status", .num 7)]) ∧
    processResponse ⟨201, [("dwn-response",
        "\x7b\"result\":\x7b\"reply\":\x7b\"status\":9\x7d\x7d\x7d")], "", 6⟩ =
      .ok (.obj [
        ("entries", .null),
        ("message", .undefined),
        ("record", .obj [("data", .stream 6)]),
        ("status", .num 9)]) := by
  have h := C10_absent_record_still_stream_object
    ⟨200, [("WEB5-RESPONSE", "eyJzdGF0dXMiOjd9")], "", 5⟩
    ⟨201, [("dwn-response",
      "\x7b\"result\":\x7b\"reply\":\x7b\"status\":9\x7d\x7d\x7d")], "", 6⟩
    "eyJzdGF0dXMiOjd9"
    "\x7b\"result\":\x7b\"reply\":\x7b\"status\":9\x7d\x7d\x7d"
    (.obj [("status", .num 7)])
    (.obj [("result", .obj [("reply", .obj [("status", .num 9)])])])
    (.obj [("status", .num 9)])
    (by decide) (by decide) (by decide) (by decide) (by decide) (by decide)
    (by decide) (by decide) (by decide) (by decide) (by decide) (by decide)
    (by decide) (by decide)
  constructor
  · rw [h.1]
    decide
  · rw [h.2]
    decide

end Web5
